import Mathlib

/-!
Verification of the Bosch VTA RAG orchestration engine
(`app/utils/rag.py`, `app/utils/helpers.py`, `app/routers/chat.py`)
as a shallow embedding in Lean 4.

External capabilities (the Qdrant client, the embedding provider, the LLM,
the DuckDuckGo backend, the directory reader) are passed in as explicit
oracle parameters; the repository's own control flow is translated
function by function.
-/

namespace VTA

/-- Python's string truthiness used by `a or b` on strings:
`a or b` evaluates to `b` when `a` is the empty string, else to `a`. -/
def orElseStr (a b : String) : String :=
  if a = "" then b else a

/-- `os.path.basename` on POSIX paths: the final path segment,
i.e. everything after the last `/` (empty when the path ends in `/`
or is empty).  Computed by a left fold that restarts the segment at
every separator. -/
def basename (p : String) : String :=
  String.mk (p.data.foldl (fun acc c => if c = '/' then [] else acc ++ [c]) [])

/-- Document metadata as used by the engine: the Python dict may lack
either key, hence `Option` fields (`none` models a missing key). -/
structure Metadata where
  file_path : Option String
  file_name : Option String
  deriving Repr, DecidableEq

/-- A document handed to the indexer: text plus metadata
(`llama_index` `Document` restricted to the fields the engine touches). -/
structure Document where
  text : String
  metadata : Metadata
  deriving Repr, DecidableEq

/-- Metadata normalization performed identically at `rag.py:193-200`
(`create_index`) and `rag.py:212-219` (`add_documents`):
`file_path` defaults to `""`; `file_name` falls back (on missing or
empty) to `os.path.basename(file_path)`. -/
def normalizeMetadata (m : Metadata) : Metadata :=
  let fp := m.file_path.getD ""
  { file_path := some fp
    file_name := some (orElseStr (m.file_name.getD "") (basename fp)) }

/-- One document run through the normalization loop. -/
def normalizeDoc (d : Document) : Document :=
  { d with metadata := normalizeMetadata d.metadata }

/-- The slice of a stored Qdrant point payload that the engine reads back:
the metadata keys `file_path` / `file_name` (either may be absent). -/
structure Payload where
  file_path : Option String
  file_name : Option String
  deriving Repr, DecidableEq

/-- The payload written for an indexed document: its (normalized) metadata. -/
def payloadOf (d : Document) : Payload :=
  { file_path := d.metadata.file_path, file_name := d.metadata.file_name }

/-- One record returned by `qdrant_client.scroll(..., with_payload=True)`:
`record.payload` may be `None` (or an empty dict, equally falsy at
`rag.py:292`), modelled as `none`. -/
structure ScrollRecord where
  payload : Option Payload
  deriving Repr, DecidableEq

/-- The loop body of `list_manuals` (`rag.py:291-296`): skip records with
falsy payload, read `file_path`, and record the first `file_name` seen
for each truthy (non-empty) `file_path` not seen before.  The accumulator
models the insertion-ordered dict `unique_filepaths`. -/
def insertRecord (acc : List (String × Option String)) (r : ScrollRecord) :
    List (String × Option String) :=
  match r.payload with
  | none => acc
  | some pl =>
    match pl.file_path with
    | none => acc
    | some fp =>
      if fp ≠ "" ∧ acc.all (fun kv => kv.1 ≠ fp) then acc ++ [(fp, pl.file_name)]
      else acc

/-- `AutoTechnicianRAG.list_manuals` (`rag.py:285-302`), with the outcome of
the `scroll` call passed in (`Except.error` models the provider raising).
Returns the `file_name` values of the deduplicated records; the enclosing
`try/except` turns any provider failure into `[]`. -/
def list_manuals (scroll : Except String (List ScrollRecord)) :
    List (Option String) :=
  match scroll with
  | Except.error _ => []
  | Except.ok records => ((records.foldl insertRecord []).map (fun kv => kv.2))

/-- One named Qdrant collection together with the chunks stored in it
(each chunk's payload restricted to the keys the engine reads back). -/
structure Collection where
  name : String
  chunks : List Payload
  deriving Repr, DecidableEq

/-- The Qdrant server state visible to the engine: its collections. -/
structure StoreState where
  collections : List Collection
  deriving Repr, DecidableEq

/-- External side effects of startup that the idempotency claim counts:
collection creations and per-document ingestion embedding calls. -/
inductive Event where
  | createCollection (name : String)
  | embedDoc (name : String)
  deriving Repr, DecidableEq

/-- The existence check at `rag.py:123-126`:
`any(col.name == collection_name for col in collections.collections)`. -/
def collectionExists (st : StoreState) (name : String) : Bool :=
  st.collections.any (fun c => c.name = name)

/-- `qdrant_client.create_collection` (`rag.py:151-170`): registers a new,
empty collection (the vector/quantization/HNSW parameters have no
observable effect on the claims and are not carried). -/
def createCollection (st : StoreState) (name : String) : StoreState :=
  { collections := st.collections ++ [{ name := name, chunks := [] }] }

/-- Appending chunk payloads to a named collection (the write performed by
`VectorStoreIndex.from_documents` / `index.insert` through
`QdrantVectorStore`). -/
def addChunks (st : StoreState) (name : String) (cs : List Payload) : StoreState :=
  { collections := st.collections.map
      (fun c => if c.name = name then { c with chunks := c.chunks ++ cs } else c) }

/-- The source path used by `create_index` (`rag.py:179-186`): `manuals`
reads `manuals_path`, anything else reads `online_resources_path`. -/
def pathFor (manuals_path online_resources_path name : String) : String :=
  if name = "manuals" then manuals_path else online_resources_path

/-- Result of running a startup step: the Qdrant state it leaves behind
(side effects persist even when an exception is raised), the provider
events it issued, and the exception message if it raised. -/
structure RunResult where
  state : StoreState
  events : List Event
  error : Option String
  deriving Repr, DecidableEq

/-- `AutoTechnicianRAG.create_index` (`rag.py:146-206`).  The directory
reader is the oracle `docsAt : path → documents`.  Order as in the source:
the collection is created first, then documents are loaded; if none were
loaded a `ValueError` is raised (the already-created empty collection
remains on the server); otherwise metadata is normalized and the documents
are embedded and written. -/
def create_index (docsAt : String → List Document)
    (manuals_path online_resources_path name : String) (st : StoreState) :
    RunResult :=
  let st1 := createCollection st name
  let documents := docsAt (pathFor manuals_path online_resources_path name)
  if documents.isEmpty then
    { state := st1
      events := [Event.createCollection name]
      error := some ("No documents loaded for " ++ name ++ ". Check the path.") }
  else
    let normed := documents.map normalizeDoc
    { state := addChunks st1 name (normed.map payloadOf)
      events := Event.createCollection name :: normed.map (fun _ => Event.embedDoc name)
      error := none }

/-- The per-collection branch of `load_or_create_indexes` (`rag.py:122-133`):
if the collection exists, `load_index` attaches to it (no creation, no
ingestion embedding, no state change); otherwise `create_index` runs. -/
def ensureOne (docsAt : String → List Document)
    (manuals_path online_resources_path name : String) (st : StoreState) :
    RunResult :=
  if collectionExists st name then { state := st, events := [], error := none }
  else create_index docsAt manuals_path online_resources_path name st

/-- `AutoTechnicianRAG.load_or_create_indexes` (`rag.py:120-135`): processes
`"manuals"` then `"online_resources"` in order; an exception aborts the
loop (and skips `_create_agent`). -/
def load_or_create_indexes (docsAt : String → List Document)
    (manuals_path online_resources_path : String) (st : StoreState) : RunResult :=
  let r1 := ensureOne docsAt manuals_path online_resources_path "manuals" st
  match r1.error with
  | some e => { state := r1.state, events := r1.events, error := some e }
  | none =>
    let r2 := ensureOne docsAt manuals_path online_resources_path
        "online_resources" r1.state
    { state := r2.state, events := r1.events ++ r2.events, error := r2.error }

/-- One conversation turn as stored in `self.sessions`:
`{"role": ..., "content": ...}` (`rag.py:268,276-278`). -/
structure Turn where
  role : String
  content : String
  deriving Repr, DecidableEq

/-- `self.sessions`: a Python dict from session id to turn list, modelled as
an insertion-ordered association list (Python dicts preserve insertion
order; updating an existing key keeps its position, a new key is
appended). -/
abbrev Sessions := List (String × List Turn)

/-- Dict lookup `d.get(k)`. -/
def dictGet (d : Sessions) (k : String) : Option (List Turn) :=
  (d.find? (fun kv => kv.1 = k)).map (fun kv => kv.2)

/-- Dict assignment `d[k] = v`. -/
def dictSet (d : Sessions) (k : String) (v : List Turn) : Sessions :=
  if (d.find? (fun kv => kv.1 = k)).isSome then
    d.map (fun kv => if kv.1 = k then (k, v) else kv)
  else d ++ [(k, v)]

/-- A retrieval source node as serialized at `rag.py:271-274`:
`{"text": str(...), "score": str(...)}`. -/
structure SourceNode where
  text : String
  score : String
  deriving Repr, DecidableEq

/-- What `self.agent.chat(query)` returns: the response text and the source
nodes surfaced during the run.  The agent is an external capability
(`ReActAgent`), so `query` takes the chat call as an oracle. -/
structure ChatResponse where
  response : String
  source_nodes : List SourceNode
  deriving Repr, DecidableEq

/-- `QueryResult` (`rag.py:78-82`). -/
structure QueryResult where
  answer : String
  source_nodes : List SourceNode
  deriving Repr, DecidableEq

/-- The engine state held by `AutoTechnicianRAG`: the Qdrant server state,
the keys of `self.indexes`, whether `self.agent` has been constructed
(`None` at `rag.py:114` until `_create_agent` runs), and `self.sessions`. -/
structure Pipeline where
  store : StoreState
  indexes : List String
  agentCreated : Bool
  sessions : Sessions

/-- The sessions-map update performed by `query`
(`rag.py:265-268` and `rag.py:276-278`): create the key if absent, append
the user turn, then append the assistant turn.  Factored out of `query`
for the proofs; `chat` is a pure oracle in this model, so performing both
appends after the chat call is observationally the same as the source's
append-chat-append order. -/
def querySessions (d : Sessions) (session_id q answer : String) : Sessions :=
  let s0 := if (dictGet d session_id).isSome then d else dictSet d session_id []
  let s1 := dictSet s0 session_id
      ((dictGet s0 session_id).getD [] ++ [{ role := "user", content := q }])
  dictSet s1 session_id
      ((dictGet s1 session_id).getD [] ++
        [{ role := "assistant", content := answer }])

/-- `AutoTechnicianRAG.query` (`rag.py:259-280`), with `self.agent.chat`
passed as the oracle `chat`.  Raises when the agent was never created;
otherwise appends the user turn, runs the agent, appends the assistant
turn, and returns the `QueryResult`. -/
def query (chat : String → ChatResponse) (p : Pipeline) (q session_id : String) :
    Except String (Pipeline × QueryResult) :=
  if p.agentCreated = false then
    Except.error
      "Agent not created. There might be an issue with index loading or creation."
  else
    let response := chat q
    Except.ok
      ({ p with sessions := querySessions p.sessions session_id q response.response },
        { answer := response.response, source_nodes := response.source_nodes })

/-- `AutoTechnicianRAG.get_history` (`rag.py:282-283`):
`self.sessions.get(session_id, [])`. -/
def get_history (p : Pipeline) (session_id : String) : List Turn :=
  (dictGet p.sessions session_id).getD []

/-- `AutoTechnicianRAG.add_documents` (`rag.py:208-233`): normalizes each
document's metadata exactly as `create_index` does and inserts it into the
`manuals` index; `self.indexes["manuals"]` raises `KeyError` when that
index was never built, which the `except` turns into `False`. -/
def add_documents (p : Pipeline) (markdown_documents : List Document) :
    Pipeline × Bool :=
  let processed_docs := markdown_documents.map normalizeDoc
  if p.indexes.contains "manuals" then
    ({ p with store := addChunks p.store "manuals" (processed_docs.map payloadOf) },
      true)
  else (p, false)

/-- The chunks currently stored in a named collection (what a full `scroll`
of that collection returns, as `list_manuals` consumes it). -/
def scrollOf (st : StoreState) (name : String) : List ScrollRecord :=
  (((st.collections.find? (fun c => c.name = name)).map
      (fun c => c.chunks)).getD []).map (fun pl => { payload := some pl })

/-- `get_rag_pipeline` (`chat.py:25-28`): raises HTTP 500 when the app state
holds no pipeline. -/
def get_rag_pipeline (state : Option Pipeline) : Except String Pipeline :=
  match state with
  | none => Except.error "RAG pipeline not initialized"
  | some p => Except.ok p

/-- One DuckDuckGo text result as yielded by `ddgs.text`:
a `{title, href, body}` record. -/
structure SearchResult where
  title : String
  href : String
  body : String
  deriving Repr, DecidableEq

/-- `_ddgs_search` inside `duckduckgo_search_tool` (`helpers.py:92-104`):
it calls `ddgs.text(input, max_results=3)` and collects the results into a
list.  The backend is the oracle `backend : input → max_results → results
or exception`.  NOTE: the source has no `try/except` and no timeout, so a
backend exception propagates unchanged out of the tool function. -/
def ddgs_search (backend : String → Nat → Except String (List SearchResult))
    (input : String) : Except String (List SearchResult) :=
  match backend input 3 with
  | Except.error e => Except.error e
  | Except.ok results => Except.ok results

/-- The mandatory tool order declared by `SYSTEM_PROMPT` (`rag.py:45-48`):
`manuals_search`, then `online_resources_search`, then `duckduckgo_search`. -/
def toolRoster : List String :=
  ["manuals_search", "online_resources_search", "duckduckgo_search"]

/-- Modelled from the spec: the Reasoning Agent's per-query control phases
(spec §4.3, `START → THOUGHT → ACTION(tool) → OBSERVATION → … →
FINAL_ANSWER → END`).  The loop itself runs inside the external
`ReActAgent` of `llama_index`, not under `src/`; the repository only
declares the behavioral contract in `SYSTEM_PROMPT` and registers the
tools in `_create_agent` (`rag.py:235-257`). -/
inductive AgentPhase where
  | start
  | thought (next : Nat)
  | action (next : Nat)
  | observation (next : Nat)
  | finalAnswer
  | ended
  deriving Repr, DecidableEq

/-- Modelled from the spec: the Reasoning Agent's state during one query —
current phase, the tool invocations recorded so far (in order), and the
observations collected so far. -/
structure AgentState where
  phase : AgentPhase
  invoked : List String
  observations : List String
  deriving Repr, DecidableEq

/-- Modelled from the spec: one transition of the Reasoning Agent state
machine (spec §4.3).  `inDomain` is the domain guard's verdict on the
query; an out-of-domain query short-circuits from `START` straight to the
refusal answer with no tool call.  In-domain, the agent walks the fixed
roster in order; `observe tool` is the tool's observation (empty or failed
observations are recorded like any other and never change the route). -/
def agentStep (inDomain : Bool) (observe : String → String) (st : AgentState) :
    AgentState :=
  match st.phase with
  | AgentPhase.start =>
    if inDomain then { st with phase := AgentPhase.thought 0 }
    else { st with phase := AgentPhase.finalAnswer }
  | AgentPhase.thought k =>
    if k < toolRoster.length then { st with phase := AgentPhase.action k }
    else { st with phase := AgentPhase.finalAnswer }
  | AgentPhase.action k =>
    { st with
      phase := AgentPhase.observation k
      invoked := st.invoked ++ [toolRoster.getD k ""] }
  | AgentPhase.observation k =>
    { st with
      phase := AgentPhase.thought (k + 1)
      observations := st.observations ++ [observe (toolRoster.getD k "")] }
  | AgentPhase.finalAnswer => { st with phase := AgentPhase.ended }
  | AgentPhase.ended => st

/-- Modelled from the spec: the agent's initial state for a query. -/
def agentInit : AgentState :=
  { phase := AgentPhase.start, invoked := [], observations := [] }

/-- Modelled from the spec: run `n` transitions of the agent machine. -/
def agentRun (inDomain : Bool) (observe : String → String) : Nat → AgentState
  | 0 => agentInit
  | n + 1 => agentStep inDomain observe (agentRun inDomain observe n)

/-- A record survives the `list_manuals` loop's path guard exactly when its
payload is present and carries a non-empty `file_path`. -/
def hasRealPath (r : ScrollRecord) : Bool :=
  match r.payload with
  | none => false
  | some pl =>
    match pl.file_path with
    | none => false
    | some fp => fp ≠ ""

/-- Whether a scroll record's payload carries exactly the path `fp`. -/
def recordHasPath (fp : String) (r : ScrollRecord) : Bool :=
  match r.payload with
  | none => false
  | some pl => pl.file_path = some fp

/-- A warm engine: the `manuals` collection exists (empty), the `manuals`
index is loaded, the agent is constructed, no sessions yet. -/
def demoPipeline : Pipeline :=
  { store := { collections := [{ name := "manuals", chunks := [] }] }
    indexes := ["manuals"]
    agentCreated := true
    sessions := [] }

/-- A document carrying neither `file_path` nor `file_name`: indexed via the
empty-string metadata fallback. -/
def noPathDoc : Document :=
  { text := "orphan chunk", metadata := { file_path := none, file_name := none } }

/-- Three documents whose indexed chunks carry two distinct `file_path`
payload values: two chunks share the fallback value `""` (no `file_path`
given), the third carries `"/m/b.pdf"`. -/
def cexDocs : List Document :=
  [ { text := "c1", metadata := { file_path := none, file_name := some "x" } },
    { text := "c2", metadata := { file_path := none, file_name := some "y" } },
    { text := "c3", metadata := { file_path := some "/m/b.pdf", file_name := none } } ]

/-- Three documents whose indexed chunks carry two distinct non-empty
`file_path` payload values, two chunks sharing `"/m/a.pdf"`. -/
def goodDocs : List Document :=
  [ { text := "g1", metadata := { file_path := some "/m/a.pdf", file_name := none } },
    { text := "g2", metadata := { file_path := some "/m/a.pdf", file_name := none } },
    { text := "g3", metadata := { file_path := some "/m/b.pdf", file_name := none } } ]

/-- A DuckDuckGo backend that raises (network failure / rate limit). -/
def failingBackend : String → Nat → Except String (List SearchResult) :=
  fun _ _ => Except.error "DuckDuckGoSearchException: request timed out"

/-- A DuckDuckGo backend that yields no results. -/
def emptyBackend : String → Nat → Except String (List SearchResult) :=
  fun _ _ => Except.ok []

/-- A directory reader that finds no documents anywhere. -/
def emptyReader : String → List Document :=
  fun _ => []

/-- A directory reader that finds one document under every path. -/
def demoReader : String → List Document :=
  fun _ => [noPathDoc]

/-- A chat oracle with a fixed answer and no source nodes. -/
def idleChat : String → ChatResponse :=
  fun _ => { response := "", source_nodes := [] }

/-- An engine whose startup never completed: `self.agent` is still `None`. -/
def coldPipeline : Pipeline :=
  { store := { collections := [] }
    indexes := []
    agentCreated := false
    sessions := [] }

/-- The engine state a successful `query` leaves behind (abbreviation used
by the session theorems): same store, indexes and agent, with the session
map updated by `querySessions`. -/
def afterQuery (chat : String → ChatResponse) (p : Pipeline) (q session_id : String) :
    Pipeline :=
  { p with sessions := querySessions p.sessions session_id q (chat q).response }

/-! ## Theorems -/

/-- C10: `list_manuals` never raises — its `try/except` maps any failure of
the underlying scroll/payload read to the empty list, so a provider
failure is indistinguishable to the caller from an empty collection. -/
theorem C10_list_manuals_error_to_empty (msg : String) :
    list_manuals (Except.error msg) = [] ∧
    list_manuals (Except.error msg) = list_manuals (Except.ok []) := by
  exact ⟨rfl, rfl⟩

/-- C7: the claim says a raising search backend degrades to an empty
observation; in the source `_ddgs_search` has no `try/except` (and no
timeout), so the backend exception propagates unchanged out of the tool
call — only a backend that returns zero results yields the empty
observation. -/
theorem C7_web_search_error_propagates :
    ddgs_search failingBackend "brake pads replacement torque" =
      Except.error "DuckDuckGoSearchException: request timed out" ∧
    ddgs_search failingBackend "brake pads replacement torque" ≠ Except.ok [] ∧
    ddgs_search emptyBackend "brake pads replacement torque" = Except.ok [] := by
  refine ⟨rfl, ?_, rfl⟩
  intro hcontra
  simp [ddgs_search, failingBackend] at hcontra

/-- C8: a query issued before startup completed fails fast: the engine
raises its descriptive agent-not-created error, and the HTTP dependency
raises its not-initialized error when no pipeline is in the app state. -/
theorem C8_query_fails_fast (chat : String → ChatResponse) (p : Pipeline)
    (q sid : String) (h : p.agentCreated = false) :
    query chat p q sid = Except.error
      "Agent not created. There might be an issue with index loading or creation." ∧
    get_rag_pipeline none = Except.error "RAG pipeline not initialized" := by
  refine ⟨?_, rfl⟩
  simp [query, h]

theorem C8_query_fails_fast_witness :
    query idleChat coldPipeline "engine stalls at idle" "s1" = Except.error
      "Agent not created. There might be an issue with index loading or creation." :=
  (C8_query_fails_fast idleChat coldPipeline "engine stalls at idle" "s1" rfl).1

/-- C5: metadata normalization (shared by `create_index` and
`add_documents`): a missing or empty `file_name` is replaced by the
basename of `file_path`; a document with neither field gets both set to
the empty string without error; `"/a/b/manual.pdf"` yields
`"manual.pdf"`; and `add_documents` applies this normalization to every
document and reports success. -/
theorem C5_metadata_fallback (m : Metadata) (p : Pipeline) (docs : List Document)
    (hname : m.file_name = none ∨ m.file_name = some "")
    (hp : p.indexes.contains "manuals" = true) :
    (normalizeMetadata m).file_name = some (basename (m.file_path.getD "")) ∧
    (normalizeMetadata m).file_path = some (m.file_path.getD "") ∧
    normalizeMetadata { file_path := none, file_name := none } =
      { file_path := some "", file_name := some "" } ∧
    normalizeMetadata { file_path := some "/a/b/manual.pdf", file_name := none } =
      { file_path := some "/a/b/manual.pdf", file_name := some "manual.pdf" } ∧
    (add_documents p docs).snd = true ∧
    (add_documents p docs).fst.store =
      addChunks p.store "manuals" ((docs.map normalizeDoc).map payloadOf) := by
  have hp' : "manuals" ∈ p.indexes := by simpa using hp
  refine ⟨?_, rfl, by decide, by decide, ?_, ?_⟩
  · rcases hname with hn | hn <;> simp [normalizeMetadata, orElseStr, hn]
  · simp [add_documents, hp']
  · simp [add_documents, hp']

theorem C5_metadata_fallback_witness :
    (normalizeMetadata { file_path := some "/x/y.md", file_name := some "" }).file_name =
      some "y.md" :=
  (C5_metadata_fallback { file_path := some "/x/y.md", file_name := some "" }
    demoPipeline [noPathDoc] (Or.inr rfl) rfl).1

/-- C2: a cold-start build that loads zero documents raises
`ValueError("No documents loaded for <name>. Check the path.")` for every
collection name, and with an empty `manuals` corpus the whole
`load_or_create_indexes` startup aborts with that error. -/
theorem C2_empty_corpus_fails (docsAt : String → List Document)
    (mp op name : String) (st : StoreState)
    (h : docsAt (pathFor mp op name) = [])
    (hm : docsAt mp = [])
    (hab : collectionExists st "manuals" = false) :
    (create_index docsAt mp op name st).error =
      some ("No documents loaded for " ++ name ++ ". Check the path.") ∧
    (load_or_create_indexes docsAt mp op st).error =
      some "No documents loaded for manuals. Check the path." := by
  constructor
  · simp [create_index, h]
  · simp [load_or_create_indexes, ensureOne, hab, create_index, pathFor, hm]

theorem C2_empty_corpus_fails_witness :
    (create_index emptyReader "data/manuals" "data/online" "online_resources"
        { collections := [] }).error =
      some "No documents loaded for online_resources. Check the path." :=
  (C2_empty_corpus_fails emptyReader "data/manuals" "data/online"
    "online_resources" { collections := [] } rfl rfl rfl).1

/-- A record without a present, non-empty `file_path` never changes the
`unique_filepaths` accumulator. -/
theorem insertRecord_skip (acc : List (String × Option String)) (r : ScrollRecord)
    (h : hasRealPath r = false) : insertRecord acc r = acc := by
  rcases r with ⟨_ | ⟨_ | fp, fn⟩⟩
  · rfl
  · rfl
  · simp only [hasRealPath, decide_eq_false_iff_not, ne_eq, not_not] at h
    subst h
    simp [insertRecord]

/-- Dropping the records the loop skips anyway does not change the fold. -/
theorem foldl_insertRecord_filter (records : List ScrollRecord)
    (acc : List (String × Option String)) :
    records.foldl insertRecord acc = (records.filter hasRealPath).foldl insertRecord acc := by
  induction records generalizing acc with
  | nil => rfl
  | cons r rest ih =>
    by_cases hr : hasRealPath r = true
    · simp [List.filter_cons, hr, ih]
    · have hr0 : hasRealPath r = false := by simpa using hr
      simp [List.filter_cons, hr0, insertRecord_skip acc r hr0, ih]

/-- C9: `list_manuals` silently omits every chunk whose payload `file_path`
is missing or empty (listing only the filtered records gives the same
output), so a document indexed through the empty-string metadata fallback
is accepted by `add_documents` yet never appears in the catalog. -/
theorem C9_empty_path_never_listed (records : List ScrollRecord) :
    list_manuals (Except.ok records) =
      list_manuals (Except.ok (records.filter hasRealPath)) ∧
    (add_documents demoPipeline [noPathDoc]).snd = true ∧
    scrollOf (add_documents demoPipeline [noPathDoc]).fst.store "manuals" =
      [{ payload := some { file_path := some "", file_name := some "" } }] ∧
    list_manuals (Except.ok
      (scrollOf (add_documents demoPipeline [noPathDoc]).fst.store "manuals")) = [] := by
  refine ⟨?_, by decide, by decide, by decide⟩
  simp [list_manuals, foldl_insertRecord_filter]

/-- Each loop step either leaves the accumulator unchanged or appends one
entry keyed by a non-empty path absent from the accumulator and present
in the record. -/
theorem insertRecord_cases (acc : List (String × Option String)) (r : ScrollRecord) :
    insertRecord acc r = acc ∨
    ∃ fp nm, insertRecord acc r = acc ++ [(fp, nm)] ∧ fp ≠ "" ∧
      (∀ kv ∈ acc, kv.1 ≠ fp) ∧ recordHasPath fp r = true := by
  rcases r with ⟨_ | ⟨_ | fp, fn⟩⟩
  · left; rfl
  · left; rfl
  · by_cases hc : fp ≠ "" ∧ acc.all (fun kv => kv.1 ≠ fp) = true
    · right
      refine ⟨fp, fn, ?_, hc.1, ?_, by simp [recordHasPath]⟩
      · simp only [insertRecord]
        rw [if_pos hc]
      · intro kv hkv
        have := List.all_eq_true.mp hc.2 kv hkv
        simpa using this
    · left
      simp only [insertRecord]
      rw [if_neg]
      intro hcontra
      exact hc ⟨hcontra.1, hcontra.2⟩

/-- Once a path is a key of the accumulator, the rest of the scan neither
duplicates it nor removes it. -/
theorem count_keys_foldl_of_mem (records : List ScrollRecord)
    (acc : List (String × Option String)) (fp : String)
    (h : fp ∈ acc.map Prod.fst) :
    ((records.foldl insertRecord acc).map Prod.fst).count fp =
      (acc.map Prod.fst).count fp ∧
    fp ∈ (records.foldl insertRecord acc).map Prod.fst := by
  induction records generalizing acc with
  | nil => exact ⟨rfl, h⟩
  | cons r rest ih =>
    rcases insertRecord_cases acc r with hr | ⟨fp2, nm, hr, _, hfresh, _⟩
    · simpa [hr] using ih acc h
    · have hne : fp2 ≠ fp := by
        intro he
        rcases List.mem_map.mp h with ⟨kv, hkv, hkey⟩
        exact hfresh kv hkv (by rw [hkey, he])
      have hkeys : (insertRecord acc r).map Prod.fst = acc.map Prod.fst ++ [fp2] := by
        simp [hr]
      have hmem2 : fp ∈ (insertRecord acc r).map Prod.fst := by
        rw [hkeys]; exact List.mem_append_left _ h
      have hcount : ((insertRecord acc r).map Prod.fst).count fp =
          (acc.map Prod.fst).count fp := by
        rw [hkeys, List.count_append]
        simp [List.count_singleton', hne]
      have := ih (insertRecord acc r) hmem2
      simp only [List.foldl_cons]
      exact ⟨by rw [this.1, hcount], this.2⟩

/-- A non-empty path not yet recorded ends up with exactly one record iff
some scanned record carries it. -/
theorem count_keys_foldl_of_not_mem (records : List ScrollRecord)
    (acc : List (String × Option String)) (fp : String) (hfp : fp ≠ "")
    (h : fp ∉ acc.map Prod.fst) :
    ((records.foldl insertRecord acc).map Prod.fst).count fp =
      (if records.any (recordHasPath fp) then 1 else 0) := by
  induction records generalizing acc with
  | nil =>
    simpa [List.count_eq_zero] using h
  | cons r rest ih =>
    by_cases hr : recordHasPath fp r = true
    · -- the record carries `fp`: it is inserted now and never again
      rcases r with ⟨_ | ⟨fpath, fn⟩⟩
      · simp [recordHasPath] at hr
      · have hfpath : fpath = some fp := by
          simpa [recordHasPath] using hr
        subst hfpath
        have hall : acc.all (fun kv => kv.1 ≠ fp) = true := by
          rw [List.all_eq_true]
          intro kv hkv
          simp only [ne_eq, decide_eq_true_eq]
          intro he
          exact h (List.mem_map.mpr ⟨kv, hkv, he⟩)
        have hins : insertRecord acc ⟨some ⟨some fp, fn⟩⟩ = acc ++ [(fp, fn)] := by
          simp only [insertRecord]
          rw [if_pos ⟨hfp, hall⟩]
        have hmem : fp ∈ (insertRecord acc ⟨some ⟨some fp, fn⟩⟩).map Prod.fst := by
          rw [hins]; simp
        have hcnt : ((insertRecord acc ⟨some ⟨some fp, fn⟩⟩).map Prod.fst).count fp = 1 := by
          rw [hins]
          rw [List.map_append, List.count_append]
          have : (acc.map Prod.fst).count fp = 0 := List.count_eq_zero.mpr h
          simp [this, List.count_singleton']
        have := count_keys_foldl_of_mem rest _ fp hmem
        simp only [List.foldl_cons, List.any_cons, hr, Bool.true_or, if_true]
        rw [this.1, hcnt]
    · -- the record does not carry `fp`
      have hr0 : recordHasPath fp r = false := by simpa using hr
      have hnot2 : fp ∉ (insertRecord acc r).map Prod.fst := by
        rcases insertRecord_cases acc r with he | ⟨fp2, nm, he, _, _, hhas⟩
        · rw [he]; exact h
        · have hne : fp2 ≠ fp := by
            intro hcontra
            rw [hcontra, hr0] at hhas
            exact Bool.false_ne_true hhas
          rw [he]
          simp only [List.map_append, List.mem_append, List.map_cons, List.map_nil,
            List.mem_singleton]
          rintro (hin | hin)
          · exact h hin
          · exact hne hin.symm
      simp only [List.foldl_cons, List.any_cons, hr0, Bool.false_or]
      exact ih (insertRecord acc r) hnot2

/-- C4 (counterexample): three chunks indexed without error from two
distinct `file_path` payload values (two chunks sharing the fallback
value `""`, one carrying `"/m/b.pdf"`) yield one listing record, not the
two the claim requires — chunks with an empty `file_path` contribute no
record at all. -/
theorem C4_dedup_counterexample :
    (add_documents demoPipeline cexDocs).snd = true ∧
    ((scrollOf (add_documents demoPipeline cexDocs).fst.store "manuals").map
        (fun r => r.payload.bind Payload.file_path)) =
      [some "", some "", some "/m/b.pdf"] ∧
    (((scrollOf (add_documents demoPipeline cexDocs).fst.store "manuals").map
        (fun r => r.payload.bind Payload.file_path)).dedup).length = 2 ∧
    (list_manuals (Except.ok
        (scrollOf (add_documents demoPipeline cexDocs).fst.store "manuals"))).length = 1 ∧
    (list_manuals (Except.ok
        (scrollOf (add_documents demoPipeline cexDocs).fst.store "manuals"))).length ≠ 2 := by
  refine ⟨by decide, by decide, by decide, by decide, by decide⟩

/-- C4 (amended): `list_manuals` returns the `{file_name}` records
deduplicated by `file_path` restricted to chunks whose payload carries a
non-empty `file_path`: each distinct non-empty path contributes exactly
one record (chunks with a missing or empty path contribute none), and
three indexed chunks over two distinct non-empty paths (two sharing one
path) yield exactly two records. -/
theorem C4_dedup_nonempty_paths (records : List ScrollRecord) (fp : String)
    (hfp : fp ≠ "") :
    ((records.foldl insertRecord []).map Prod.fst).count fp =
      (if records.any (recordHasPath fp) then 1 else 0) ∧
    (list_manuals (Except.ok records)).length = (records.foldl insertRecord []).length ∧
    (add_documents demoPipeline goodDocs).snd = true ∧
    (list_manuals (Except.ok
        (scrollOf (add_documents demoPipeline goodDocs).fst.store "manuals"))).length = 2 := by
  refine ⟨count_keys_foldl_of_not_mem records [] fp hfp (by simp), ?_, by decide, by decide⟩
  simp [list_manuals]

theorem C4_dedup_nonempty_paths_witness :
    ((([({ payload := some { file_path := some "/m/a.pdf", file_name := some "a.pdf" } } :
          ScrollRecord),
        { payload := some { file_path := some "/m/a.pdf", file_name := some "a.pdf" } },
        { payload := some { file_path := some "/m/b.pdf", file_name := some "b.pdf" } }]).foldl
          insertRecord []).map Prod.fst).count "/m/a.pdf" = 1 := by
  have h := (C4_dedup_nonempty_paths
    [{ payload := some { file_path := some "/m/a.pdf", file_name := some "a.pdf" } },
     { payload := some { file_path := some "/m/a.pdf", file_name := some "a.pdf" } },
     { payload := some { file_path := some "/m/b.pdf", file_name := some "b.pdf" } }]
    "/m/a.pdf" (by decide)).1
  rw [h]
  decide

/-- Updating a present key in place makes it the first (and looked-up)
match for that key. -/
theorem find?_update_self (d : Sessions) (k : String) (v : List Turn)
    (hd : (d.find? (fun kv => kv.1 = k)).isSome = true) :
    (d.map (fun kv => if kv.1 = k then (k, v) else kv)).find?
        (fun kv => kv.1 = k) = some (k, v) := by
  induction d with
  | nil => simp at hd
  | cons kv rest ih =>
    by_cases hk : kv.1 = k
    · simp [hk]
    · have hd2 : (rest.find? (fun kv => kv.1 = k)).isSome = true := by
        simpa [List.find?_cons_of_neg, hk] using hd
      simp [hk, ih hd2]

/-- Updating key `k` in place leaves lookups of any other key unchanged. -/
theorem find?_update_other (d : Sessions) (k k2 : String) (v : List Turn)
    (h : k2 ≠ k) :
    (d.map (fun kv => if kv.1 = k then (k, v) else kv)).find?
        (fun kv => kv.1 = k2) = d.find? (fun kv => kv.1 = k2) := by
  induction d with
  | nil => rfl
  | cons kv rest ih =>
    rw [List.map_cons]
    by_cases hk : kv.1 = k
    · rw [if_pos hk,
        List.find?_cons_of_neg _ (by simp [Ne.symm h]),
        List.find?_cons_of_neg _ (by simp [hk, Ne.symm h]), ih]
    · rw [if_neg hk]
      by_cases hk2 : kv.1 = k2
      · rw [List.find?_cons_of_pos _ (by simpa using hk2),
          List.find?_cons_of_pos _ (by simpa using hk2)]
      · rw [List.find?_cons_of_neg _ (by simpa using hk2),
          List.find?_cons_of_neg _ (by simpa using hk2), ih]

/-- `d[k] = v` makes `d.get(k)` return `v`. -/
theorem dictGet_dictSet_self (d : Sessions) (k : String) (v : List Turn) :
    dictGet (dictSet d k v) k = some v := by
  unfold dictSet
  by_cases hd : (d.find? (fun kv => kv.1 = k)).isSome = true
  · rw [if_pos hd]
    unfold dictGet
    rw [find?_update_self d k v hd]
    rfl
  · rw [if_neg (by simpa using hd)]
    unfold dictGet
    have hnone : d.find? (fun kv => kv.1 = k) = none := by
      cases hx : d.find? (fun kv => kv.1 = k) with
      | none => rfl
      | some kv0 => rw [hx] at hd; simp at hd
    rw [List.find?_append, hnone]
    simp

/-- `d[k] = v` leaves `d.get(k2)` unchanged for `k2 ≠ k`. -/
theorem dictGet_dictSet_other (d : Sessions) (k k2 : String) (v : List Turn)
    (h : k2 ≠ k) :
    dictGet (dictSet d k v) k2 = dictGet d k2 := by
  unfold dictSet
  by_cases hd : (d.find? (fun kv => kv.1 = k)).isSome = true
  · rw [if_pos hd]
    unfold dictGet
    rw [find?_update_other d k k2 v h]
  · rw [if_neg (by simpa using hd)]
    unfold dictGet
    rw [List.find?_append]
    simp [Ne.symm h]

/-- After one query, the session's log gains exactly the user turn and the
assistant turn, in that order, at the end. -/
theorem querySessions_self (d : Sessions) (sid q a : String) :
    dictGet (querySessions d sid q a) sid =
      some ((dictGet d sid).getD [] ++
        [{ role := "user", content := q }, { role := "assistant", content := a }]) := by
  unfold querySessions
  by_cases hd : (dictGet d sid).isSome = true
  · rw [if_pos hd, dictGet_dictSet_self, dictGet_dictSet_self]
    simp
  · rw [if_neg (by simpa using hd)]
    rw [dictGet_dictSet_self, dictGet_dictSet_self]
    have hnone : dictGet d sid = none := by
      cases hx : dictGet d sid with
      | none => rfl
      | some v0 => rw [hx] at hd; simp at hd
    simp [dictGet_dictSet_self, hnone]

/-- A query on one session never touches another session's log. -/
theorem querySessions_other (d : Sessions) (sid q a s : String) (h : s ≠ sid) :
    dictGet (querySessions d sid q a) s = dictGet d s := by
  unfold querySessions
  by_cases hd : (dictGet d sid).isSome = true
  · rw [if_pos hd, dictGet_dictSet_other _ _ _ _ h, dictGet_dictSet_other _ _ _ _ h]
  · rw [if_neg (by simpa using hd), dictGet_dictSet_other _ _ _ _ h,
      dictGet_dictSet_other _ _ _ _ h, dictGet_dictSet_other _ _ _ _ h]

/-- C3: a successful `query` appends exactly one user turn (the query text)
and then one assistant turn (the answer) to the session's log, rewrites no
prior turn, and leaves every other session's log unchanged; running query
A then query B on the same session leaves A's user and assistant turns in
order before B's. -/
theorem C3_session_append (chat : String → ChatResponse) (p : Pipeline)
    (qA qB sid : String) (h : p.agentCreated = true) :
    query chat p qA sid = Except.ok (afterQuery chat p qA sid,
      { answer := (chat qA).response, source_nodes := (chat qA).source_nodes }) ∧
    query chat (afterQuery chat p qA sid) qB sid = Except.ok
      (afterQuery chat (afterQuery chat p qA sid) qB sid,
        { answer := (chat qB).response, source_nodes := (chat qB).source_nodes }) ∧
    get_history (afterQuery chat p qA sid) sid =
      get_history p sid ++
        [{ role := "user", content := qA },
         { role := "assistant", content := (chat qA).response }] ∧
    get_history (afterQuery chat (afterQuery chat p qA sid) qB sid) sid =
      get_history p sid ++
        [{ role := "user", content := qA },
         { role := "assistant", content := (chat qA).response },
         { role := "user", content := qB },
         { role := "assistant", content := (chat qB).response }] ∧
    (∀ s, s ≠ sid →
      get_history (afterQuery chat p qA sid) s = get_history p s ∧
      get_history (afterQuery chat (afterQuery chat p qA sid) qB sid) s =
        get_history p s) ∧
    (afterQuery chat p qA sid).store = p.store ∧
    (afterQuery chat p qA sid).indexes = p.indexes ∧
    (afterQuery chat p qA sid).agentCreated = p.agentCreated := by
  refine ⟨?_, ?_, ?_, ?_, ?_, rfl, rfl, rfl⟩
  · simp [query, afterQuery, h]
  · simp [query, afterQuery, h]
  · simp [get_history, afterQuery, querySessions_self]
  · simp [get_history, afterQuery, querySessions_self]
  · intro s hs
    constructor
    · simp [get_history, afterQuery, querySessions_other _ _ _ _ _ hs]
    · simp [get_history, afterQuery, querySessions_other _ _ _ _ _ hs]

theorem C3_session_append_witness :
    query idleChat demoPipeline "rattle when braking" "s1" = Except.ok
      (afterQuery idleChat demoPipeline "rattle when braking" "s1",
        { answer := "", source_nodes := [] }) :=
  (C3_session_append idleChat demoPipeline "rattle when braking"
    "grinding at low speed" "s1" rfl).1

/-- Writing chunks changes no collection name. -/
theorem names_addChunks (st : StoreState) (name : String) (cs : List Payload) :
    (addChunks st name cs).collections.map Collection.name =
      st.collections.map Collection.name := by
  unfold addChunks
  rw [List.map_map]
  apply List.map_congr_left
  intro c _
  by_cases hc : c.name = name
  · simp [hc]
  · simp [hc]

/-- Creating a collection appends exactly its name. -/
theorem names_createCollection (st : StoreState) (name : String) :
    (createCollection st name).collections.map Collection.name =
      st.collections.map Collection.name ++ [name] := by
  simp [createCollection]

/-- The existence check is membership of the name list. -/
theorem collectionExists_iff (st : StoreState) (name : String) :
    collectionExists st name = true ↔ name ∈ st.collections.map Collection.name := by
  unfold collectionExists
  rw [List.any_eq_true]
  constructor
  · rintro ⟨c, hc, he⟩
    exact List.mem_map.mpr ⟨c, hc, by simpa using he⟩
  · intro hm
    rcases List.mem_map.mp hm with ⟨c, hc, he⟩
    exact ⟨c, hc, by simpa using he⟩

/-- A warm collection makes `ensureOne` a pure attach: no creation, no
ingestion embedding, no state change, no error. -/
theorem ensureOne_exists (docsAt : String → List Document)
    (mp op name : String) (st : StoreState)
    (h : collectionExists st name = true) :
    ensureOne docsAt mp op name st = { state := st, events := [], error := none } := by
  simp [ensureOne, h]

/-- A non-failing `ensureOne` leaves its collection existing, preserves every
existing collection, and preserves name-list freedom from duplicates. -/
theorem ensureOne_ok (docsAt : String → List Document)
    (mp op name : String) (st : StoreState)
    (h : (ensureOne docsAt mp op name st).error = none) :
    collectionExists (ensureOne docsAt mp op name st).state name = true ∧
    (∀ n, collectionExists st n = true →
      collectionExists (ensureOne docsAt mp op name st).state n = true) ∧
    ((st.collections.map Collection.name).Nodup →
      (((ensureOne docsAt mp op name st).state.collections.map Collection.name)).Nodup) := by
  by_cases he : collectionExists st name = true
  · rw [ensureOne_exists docsAt mp op name st he]
    exact ⟨he, fun n hn => hn, fun hd => hd⟩
  · have he0 : collectionExists st name = false := by simpa using he
    unfold ensureOne at h ⊢
    rw [he0] at h ⊢
    simp only [Bool.false_eq_true, if_false] at h ⊢
    unfold create_index at h ⊢
    by_cases hd : (docsAt (pathFor mp op name)).isEmpty = true
    · rw [if_pos hd] at h
      simp at h
    · rw [if_neg (by simpa using hd)] at h ⊢
      have hnames :
          ((addChunks (createCollection st name) name
              (((docsAt (pathFor mp op name)).map normalizeDoc).map payloadOf)).collections.map
            Collection.name) = st.collections.map Collection.name ++ [name] := by
        rw [names_addChunks, names_createCollection]
      refine ⟨?_, ?_, ?_⟩
      · rw [collectionExists_iff, hnames]
        simp
      · intro n hn
        rw [collectionExists_iff] at hn ⊢
        rw [hnames]
        exact List.mem_append_left _ hn
      · intro hnd
        rw [hnames]
        have hnot : name ∉ st.collections.map Collection.name := by
          intro hmem
          rw [← collectionExists_iff] at hmem
          rw [hmem] at he0
          exact Bool.true_eq_false.mp he0 |>.elim
        simp [List.nodup_append, hnd, hnot]

/-- Unfolding equation for `load_or_create_indexes` with the `let` bindings
substituted. -/
theorem load_or_create_eq (docsAt : String → List Document)
    (mp op : String) (st : StoreState) :
    load_or_create_indexes docsAt mp op st =
      match (ensureOne docsAt mp op "manuals" st).error with
      | some e =>
        { state := (ensureOne docsAt mp op "manuals" st).state,
          events := (ensureOne docsAt mp op "manuals" st).events,
          error := some e }
      | none =>
        { state := (ensureOne docsAt mp op "online_resources"
            (ensureOne docsAt mp op "manuals" st).state).state,
          events := (ensureOne docsAt mp op "manuals" st).events ++
            (ensureOne docsAt mp op "online_resources"
              (ensureOne docsAt mp op "manuals" st).state).events,
          error := (ensureOne docsAt mp op "online_resources"
            (ensureOne docsAt mp op "manuals" st).state).error } := rfl

/-- C6: startup collection setup is idempotent — after a successful run of
`load_or_create_indexes`, a second run attaches to both existing
collections, creating nothing, embedding nothing and changing nothing;
names stay duplicate-free; and any existing collection makes the
per-collection step a pure attach. -/
theorem C6_startup_idempotent (docsAt : String → List Document)
    (mp op : String) (st : StoreState)
    (h : (load_or_create_indexes docsAt mp op st).error = none)
    (hnd : (st.collections.map Collection.name).Nodup) :
    load_or_create_indexes docsAt mp op
        (load_or_create_indexes docsAt mp op st).state =
      { state := (load_or_create_indexes docsAt mp op st).state,
        events := [], error := none } ∧
    ((load_or_create_indexes docsAt mp op st).state.collections.map
      Collection.name).Nodup ∧
    (∀ (st2 : StoreState) (name : String), collectionExists st2 name = true →
      ensureOne docsAt mp op name st2 =
        { state := st2, events := [], error := none }) := by
  have h1 : (ensureOne docsAt mp op "manuals" st).error = none := by
    rw [load_or_create_eq] at h
    cases hx : (ensureOne docsAt mp op "manuals" st).error with
    | none => rfl
    | some e => rw [hx] at h; simp at h
  have h2 : (ensureOne docsAt mp op "online_resources"
      (ensureOne docsAt mp op "manuals" st).state).error = none := by
    rw [load_or_create_eq, h1] at h
    simpa using h
  have hstate : (load_or_create_indexes docsAt mp op st).state =
      (ensureOne docsAt mp op "online_resources"
        (ensureOne docsAt mp op "manuals" st).state).state := by
    rw [load_or_create_eq, h1]
  obtain ⟨hm1, hpres1, hnd1⟩ := ensureOne_ok docsAt mp op "manuals" st h1
  obtain ⟨ho2, hpres2, hnd2⟩ := ensureOne_ok docsAt mp op "online_resources"
    (ensureOne docsAt mp op "manuals" st).state h2
  have hm2 : collectionExists (load_or_create_indexes docsAt mp op st).state
      "manuals" = true := by
    rw [hstate]; exact hpres2 "manuals" hm1
  have ho2f : collectionExists (load_or_create_indexes docsAt mp op st).state
      "online_resources" = true := by
    rw [hstate]; exact ho2
  refine ⟨?_, ?_, fun st2 name hx => ensureOne_exists docsAt mp op name st2 hx⟩
  · rw [load_or_create_eq, ensureOne_exists docsAt mp op "manuals" _ hm2]
    simp only
    rw [ensureOne_exists docsAt mp op "online_resources" _ ho2f]
    rfl
  · rw [hstate]
    exact hnd2 (hnd1 hnd)

theorem C6_startup_idempotent_witness :
    load_or_create_indexes demoReader "data/manuals" "data/online"
        (load_or_create_indexes demoReader "data/manuals" "data/online"
          { collections := [] }).state =
      { state := (load_or_create_indexes demoReader "data/manuals" "data/online"
          { collections := [] }).state,
        events := [], error := none } :=
  (C6_startup_idempotent demoReader "data/manuals" "data/online"
    { collections := [] } rfl (by simp)).1

/-- A terminated agent run never changes state again. -/
theorem agentStep_ended (inDomain : Bool) (observe : String → String)
    (st : AgentState) (h : st.phase = AgentPhase.ended) :
    agentStep inDomain observe st = st := by
  rcases st with ⟨ph, inv, obs⟩
  simp only at h
  subst h
  rfl

/-- One agent step's phase and invocation record do not depend on the
observation contents. -/
theorem agentStep_obs_invariant (inDomain : Bool) (o1 o2 : String → String)
    (s1 s2 : AgentState) (hp : s1.phase = s2.phase) (hi : s1.invoked = s2.invoked) :
    (agentStep inDomain o1 s1).phase = (agentStep inDomain o2 s2).phase ∧
    (agentStep inDomain o1 s1).invoked = (agentStep inDomain o2 s2).invoked := by
  rcases s1 with ⟨ph1, inv1, obs1⟩
  rcases s2 with ⟨ph2, inv2, obs2⟩
  simp only at hp hi
  subst hp
  subst hi
  cases ph1 with
  | start => by_cases hd : inDomain = true <;> simp [agentStep, hd]
  | thought k => by_cases hk : k < toolRoster.length <;> simp [agentStep, hk]
  | action k => simp [agentStep]
  | observation k => simp [agentStep]
  | finalAnswer => simp [agentStep]
  | ended => simp [agentStep]

/-- A whole agent run's phase and invocation record do not depend on the
observation contents. -/
theorem agentRun_obs_invariant (inDomain : Bool) (o1 o2 : String → String) (n : Nat) :
    (agentRun inDomain o1 n).phase = (agentRun inDomain o2 n).phase ∧
    (agentRun inDomain o1 n).invoked = (agentRun inDomain o2 n).invoked := by
  induction n with
  | zero => exact ⟨rfl, rfl⟩
  | succ k ih => exact agentStep_obs_invariant inDomain o1 o2 _ _ ih.1 ih.2

/-- C1: in the Reasoning Agent state machine modelled from spec §4.3 (the
ReAct loop itself runs in the external `llama_index` dependency; the
repository pins the order in `SYSTEM_PROMPT` and `_create_agent`), an
in-domain query's completed run records exactly
`[manuals_search, online_resources_search, duckduckgo_search]`, the run
terminates, longer runs record nothing further, and the recorded sequence
is independent of the observation contents at every step. -/
theorem C1_tool_order (inDomain : Bool) (observeA observeB : String → String)
    (h : inDomain = true) :
    (agentRun inDomain observeA 12).invoked = toolRoster ∧
    (agentRun inDomain observeA 12).phase = AgentPhase.ended ∧
    (∀ m, agentRun inDomain observeA (12 + m) = agentRun inDomain observeA 12) ∧
    (∀ n, (agentRun inDomain observeA n).invoked =
      (agentRun inDomain observeB n).invoked) := by
  subst h
  refine ⟨rfl, rfl, ?_, fun n => (agentRun_obs_invariant true observeA observeB n).2⟩
  intro m
  induction m with
  | zero => rfl
  | succ k ih =>
    have h12 : 12 + (k + 1) = (12 + k) + 1 := rfl
    rw [h12]
    show agentStep true observeA (agentRun true observeA (12 + k)) = _
    rw [ih]
    exact agentStep_ended true observeA _ rfl

theorem C1_tool_order_witness :
    (agentRun true (fun _ => "no results") 12).invoked = toolRoster :=
  (C1_tool_order true (fun _ => "no results") (fun t => t) rfl).1

end VTA
